import Mathlib

/-!
Shallow embedding of the MaidSafe-Vault-Manager hard core:

* the APPENDABLE_BY_ALL chunk-action handlers
  (src/maidsafe/private/chunk_actions/appendable_by_all_rules.cc),
* the framed TCP connection's encode / read-size path
  (src/maidsafe/private/tcp_connection.cc),
* the Vault Manager control-message handlers
  (src/maidsafe/private/vault_manager.cc).

Byte strings are modelled as lists of naturals; the external collaborators
that the spec declares out of scope (asymmetric crypto, protobuf codecs,
the process manager, the filesystem) are modelled as explicit parameters
or as small executable stand-ins, documented at each definition.
-/

/-- Byte strings (std::string used as a byte buffer) are lists of naturals. -/
abbrev Bytes : Type := List Nat

/-- Return codes from return_codes.h.  The header is not under src/, so the
codes are modelled as a closed enumeration; the source only ever compares
them for identity. -/
inductive ReturnCode where
  | kSuccess
  | kGeneralError
  | kFailedToFindChunk
  | kInvalidPublicKey
  | kNotOwner
  | kKeyNotUnique
  | kInvalidSignedData
  | kSignatureVerificationFailure
  | kParseFailure
  | kInvalidModify
  | kAppendDisallowed
deriving DecidableEq, Repr

/-- External asymmetric-crypto primitives (maidsafe::rsa, an out-of-scope
collaborator per the spec).  CheckSignature and Validate return true exactly
when the C++ functions report success. -/
structure Crypto where
  ValidateKey : Nat → Bool
  CheckSignature : Bytes → Bytes → Nat → Bool
  Validate : Bytes → Bytes → Nat → Bool

/-- SignedData protobuf message from chunk.proto: a data / signature pair. -/
structure SignedData where
  data : Bytes
  signature : Bytes
deriving DecidableEq, Repr

/-- AppendableByAll protobuf message from appendable_by_all.proto. -/
structure AppendableByAll where
  identity_key : SignedData
  allow_others_to_append : SignedData
  appendices : List SignedData
deriving DecidableEq, Repr

/-- ModifyAppendableByAll protobuf message: the owner's modification payload,
each field a SignedData whose data may be empty. -/
structure ModifyAppendableByAll where
  allow_others_to_append : SignedData
  identity_key : SignedData
deriving DecidableEq, Repr

/-- Length-prefixed byte-field encoding.  The protobuf wire codec is an
external collaborator; it is modelled by this executable injective encoding,
whose decoder is a partial inverse, which is all the source relies on. -/
def encField (bs : Bytes) : Bytes := bs.length :: bs

/-- Decoder for one length-prefixed field, returning the field and the rest. -/
def decField : Bytes → Option (Bytes × Bytes)
  | [] => none
  | n :: rest =>
    if n ≤ rest.length then some (rest.take n, rest.drop n) else none

/-- Composable SignedData encoding: two length-prefixed fields. -/
def encSignedData (sd : SignedData) : Bytes :=
  encField sd.data ++ encField sd.signature

/-- Composable SignedData decoder, returning the unread remainder. -/
def decSignedData (input : Bytes) : Option (SignedData × Bytes) :=
  match decField input with
  | none => none
  | some (d, rest1) =>
    match decField rest1 with
    | none => none
    | some (s, rest2) => some (⟨d, s⟩, rest2)

/-- SerializeToString for a SignedData message. -/
def SerialiseSignedData (sd : SignedData) : Bytes := encSignedData sd

/-- ParseProtobuf of a SignedData message: the whole input must be consumed. -/
def ParseSignedData (input : Bytes) : Option SignedData :=
  match decSignedData input with
  | some (sd, []) => some sd
  | _ => none

/-- Encoding of a repeated SignedData field, elements back to back. -/
def encAppendices : List SignedData → Bytes
  | [] => []
  | sd :: rest => encSignedData sd ++ encAppendices rest

/-- Decoder for a counted repeated SignedData field. -/
def decAppendices : Nat → Bytes → Option (List SignedData × Bytes)
  | 0, input => some ([], input)
  | n + 1, input =>
    match decSignedData input with
    | none => none
    | some (sd, rest) =>
      match decAppendices n rest with
      | none => none
      | some (l, r) => some (sd :: l, r)

/-- SerializeToString for an AppendableByAll message: the two SignedData
fields, then the appendix count and the appendices back to back. -/
def SerialiseAppendableByAll (c : AppendableByAll) : Bytes :=
  encSignedData c.identity_key ++ encSignedData c.allow_others_to_append ++
    (c.appendices.length :: encAppendices c.appendices)

/-- ParseProtobuf of an AppendableByAll message. -/
def ParseAppendableByAll (input : Bytes) : Option AppendableByAll :=
  match decSignedData input with
  | none => none
  | some (idk, rest1) =>
    match decSignedData rest1 with
    | none => none
    | some (aota, rest2) =>
      match rest2 with
      | [] => none
      | n :: rest3 =>
        match decAppendices n rest3 with
        | some (l, []) => some ⟨idk, aota, l⟩
        | _ => none

/-- SerializeToString for a ModifyAppendableByAll message. -/
def SerialiseModifyAppendableByAll (m : ModifyAppendableByAll) : Bytes :=
  encSignedData m.allow_others_to_append ++ encSignedData m.identity_key

/-- ParseProtobuf of a ModifyAppendableByAll message. -/
def ParseModifyAppendableByAll (input : Bytes) : Option ModifyAppendableByAll :=
  match decSignedData input with
  | none => none
  | some (aota, rest1) =>
    match decSignedData rest1 with
    | some (idk, []) => some ⟨aota, idk⟩
    | _ => none

/-- Chunk store (an external key-to-bytes store per the spec): an association
list from chunk name to chunk content. -/
abbrev ChunkStore : Type := List (Bytes × Bytes)

/-- ChunkStore::Get: the stored content, or the empty string when the name is
absent, exactly as the C++ call sites treat it. -/
def ChunkStoreGet (store : ChunkStore) (name : Bytes) : Bytes :=
  match store.find? (fun p => p.1 = name) with
  | some p => p.2
  | none => []

/-- ChunkStore::Has. -/
def ChunkStoreHas (store : ChunkStore) (name : Bytes) : Bool :=
  (store.find? (fun p => p.1 = name)).isSome

/-- Modelled from the spec: the APPENDABLE_BY_ALL chunk-type tag value, an
element of the closed tag enumeration whose defining header is not under
src/.  The spec's scenarios use first byte 1 for an appendable control field
and 0 for a non-appendable one, so the tag is modelled as 1. -/
def kAppendableByAll : Nat := 1

/-- ProcessGet for kAppendableByAll
(appendable_by_all_rules.cc, lines 58 to 99).  The chunk store is threaded
through and returned so that absence of store mutation is observable; the
middle component models the existing_content output parameter. -/
def ProcessGet (crypto : Crypto) (name : Bytes) (_version : Bytes)
    (public_key : Nat) (chunk_store : ChunkStore) :
    ReturnCode × Bytes × ChunkStore :=
  let all_existing_content := ChunkStoreGet chunk_store name
  if all_existing_content = [] then (.kFailedToFindChunk, [], chunk_store)
  else
    match ParseAppendableByAll all_existing_content with
    | none => (.kGeneralError, [], chunk_store)
    | some existing_chunk =>
      if !crypto.ValidateKey public_key then
        (.kInvalidPublicKey, [], chunk_store)
      else if crypto.CheckSignature existing_chunk.allow_others_to_append.data
          existing_chunk.allow_others_to_append.signature public_key then
        (.kSuccess,
          SerialiseAppendableByAll { existing_chunk with appendices := [] },
          chunk_store)
      else
        (.kNotOwner, SerialiseSignedData existing_chunk.identity_key,
          chunk_store)

/-- ProcessStore for kAppendableByAll
(appendable_by_all_rules.cc, lines 101 to 134). -/
def ProcessStore (crypto : Crypto) (name : Bytes) (content : Bytes)
    (public_key : Nat) (chunk_store : ChunkStore) : ReturnCode × ChunkStore :=
  if ChunkStoreHas chunk_store name then (.kKeyNotUnique, chunk_store)
  else
    match ParseAppendableByAll content with
    | none => (.kInvalidSignedData, chunk_store)
    | some chunk =>
      if !crypto.ValidateKey public_key then (.kInvalidPublicKey, chunk_store)
      else if !crypto.CheckSignature chunk.allow_others_to_append.data
          chunk.allow_others_to_append.signature public_key then
        (.kSignatureVerificationFailure, chunk_store)
      else (.kSuccess, chunk_store)

/-- ProcessDelete for kAppendableByAll
(appendable_by_all_rules.cc, lines 136 to 184). -/
def ProcessDelete (crypto : Crypto) (name : Bytes) (_version : Bytes)
    (ownership_proof : Bytes) (public_key : Nat) (chunk_store : ChunkStore) :
    ReturnCode × ChunkStore :=
  let existing_content := ChunkStoreGet chunk_store name
  if existing_content = [] then (.kSuccess, chunk_store)
  else
    match ParseAppendableByAll existing_content with
    | none => (.kGeneralError, chunk_store)
    | some existing_chunk =>
      if !crypto.ValidateKey public_key then (.kInvalidPublicKey, chunk_store)
      else if !crypto.CheckSignature
          existing_chunk.allow_others_to_append.data
          existing_chunk.allow_others_to_append.signature public_key then
        (.kSignatureVerificationFailure, chunk_store)
      else
        match ParseSignedData ownership_proof with
        | none => (.kNotOwner, chunk_store)
        | some deletion_token =>
          if !crypto.CheckSignature deletion_token.data
              deletion_token.signature public_key then
            (.kNotOwner, chunk_store)
          else (.kSuccess, chunk_store)

/-- ProcessModify for kAppendableByAll
(appendable_by_all_rules.cc, lines 186 to 312).  The middle component models
the new_content output parameter; the appendability test reads the first
byte of the control field's data, with the null byte 0 standing for the
c_str terminator read on an empty field. -/
def ProcessModify (crypto : Crypto) (name : Bytes) (content : Bytes)
    (_version : Bytes) (public_key : Nat) (chunk_store : ChunkStore) :
    ReturnCode × Bytes × ChunkStore :=
  let existing_content := ChunkStoreGet chunk_store name
  if existing_content = [] then (.kFailedToFindChunk, [], chunk_store)
  else
    match ParseAppendableByAll existing_content with
    | none => (.kGeneralError, [], chunk_store)
    | some existing_chunk =>
      if !crypto.ValidateKey public_key then
        (.kInvalidPublicKey, [], chunk_store)
      else
        let is_owner := crypto.CheckSignature
          existing_chunk.allow_others_to_append.data
          existing_chunk.allow_others_to_append.signature public_key
        if is_owner then
          match ParseModifyAppendableByAll content with
          | none => (.kParseFailure, [], chunk_store)
          | some chunk =>
            let allow_others_to_append_empty :=
              chunk.allow_others_to_append.data.isEmpty
            let identity_key_empty := chunk.identity_key.data.isEmpty
            if allow_others_to_append_empty && identity_key_empty then
              (.kInvalidModify, [], chunk_store)
            else if !allow_others_to_append_empty && !identity_key_empty then
              (.kInvalidModify, [], chunk_store)
            else if !allow_others_to_append_empty then
              if !crypto.CheckSignature chunk.allow_others_to_append.data
                  chunk.allow_others_to_append.signature public_key then
                (.kSignatureVerificationFailure, [], chunk_store)
              else if chunk.allow_others_to_append.data =
                  existing_chunk.allow_others_to_append.data then
                (.kSuccess,
                  SerialiseAppendableByAll
                    { existing_chunk with appendices := [] },
                  chunk_store)
              else
                (.kSuccess,
                  SerialiseAppendableByAll
                    { existing_chunk with
                      allow_others_to_append := chunk.allow_others_to_append },
                  chunk_store)
            else
              if !crypto.CheckSignature chunk.identity_key.data
                  chunk.identity_key.signature public_key then
                (.kSignatureVerificationFailure, [], chunk_store)
              else if chunk.identity_key.data =
                  existing_chunk.identity_key.data then
                (.kSuccess,
                  SerialiseAppendableByAll
                    { existing_chunk with appendices := [] },
                  chunk_store)
              else
                (.kSuccess,
                  SerialiseAppendableByAll
                    { existing_chunk with identity_key := chunk.identity_key },
                  chunk_store)
        else
          let appendability :=
            existing_chunk.allow_others_to_append.data.headD 0
          if appendability = kAppendableByAll then
            match ParseSignedData content with
            | none => (.kInvalidSignedData, [], chunk_store)
            | some appendix =>
              if !crypto.CheckSignature appendix.data appendix.signature
                  public_key then
                (.kSignatureVerificationFailure, [], chunk_store)
              else
                (.kSuccess,
                  SerialiseAppendableByAll
                    { existing_chunk with
                      appendices := existing_chunk.appendices ++ [appendix] },
                  chunk_store)
          else (.kAppendDisallowed, [], chunk_store)

/-- ProcessHas for kAppendableByAll
(appendable_by_all_rules.cc, lines 314 to 325). -/
def ProcessHas (_crypto : Crypto) (name : Bytes) (_version : Bytes)
    (_public_key : Nat) (chunk_store : ChunkStore) : ReturnCode × ChunkStore :=
  if !ChunkStoreHas chunk_store name then (.kFailedToFindChunk, chunk_store)
  else (.kSuccess, chunk_store)

/-- Transport conditions reported by the TCP connection (transport header not
under src/; the four conditions used in tcp_connection.cc are modelled). -/
inductive TransportCondition where
  | kSendFailure
  | kSendTimeout
  | kReceiveFailure
  | kReceiveTimeout
deriving DecidableEq, Repr

/-- Modelled from the spec: kMaxTransportMessageSize, the configured maximum
payload size; the transport header carrying its numeric value is not under
src/.  Any positive bound below 2 to the 32 gives the same results. -/
def kMaxTransportMessageSize : Nat := 67108864

/-- TcpConnection::EncodeData (tcp_connection.cc, lines 257 to 263): the
4-byte size buffer, each byte the truncation of msg_size shifted right by
8 * (3 - i), and the data buffer.  msg_size is the payload length cast to
the 4-byte DataSize. -/
def EncodeData (data : Bytes) : Bytes × Bytes :=
  let msg_size := data.length % 2 ^ 32
  ([msg_size >>> (8 * 3) % 256, msg_size >>> (8 * 2) % 256,
    msg_size >>> (8 * 1) % 256, msg_size >>> (8 * 0) % 256], data)

/-- TcpConnection::StartWrite sends the size buffer and the data buffer as
one gather write; the frame on the wire is their concatenation. -/
def EncodedFrame (data : Bytes) : Bytes :=
  (EncodeData data).1 ++ (EncodeData data).2

/-- Size decoding in TcpConnection::HandleReadSize (tcp_connection.cc, lines
169 to 170): successive shift-left-by-8 and bitwise-or over the four bytes. -/
def DecodeDataSize (size_buffer : Bytes) : Nat :=
  ((((((size_buffer.getD 0 0 <<< 8) ||| size_buffer.getD 1 0) <<< 8) |||
    size_buffer.getD 2 0) <<< 8)) ||| size_buffer.getD 3 0

/-- Big-endian 4-byte encoding of a length, as the spec words it. -/
def BigEndian4 (n : Nat) : Bytes :=
  [n / 2 ^ 24 % 256, n / 2 ^ 16 % 256, n / 2 ^ 8 % 256, n % 256]

/-- Receive side of one frame: read 4 size bytes, decode the length, then
read exactly that many payload bytes (HandleReadSize / StartReadData /
HandleReadData accumulation applied to a single whole frame). -/
def ReceiveFrame (wire : Bytes) : Option Bytes :=
  if 4 ≤ wire.length then
    let L := DecodeDataSize (wire.take 4)
    let rest := wire.drop 4
    if rest.length = L then some rest else none
  else none

/-- Receive state machine phases of one TcpConnection. -/
inductive ConnPhase where
  | ReadingSize
  | ReadingData
  | Dispatching
  | Closed
deriving DecidableEq, Repr

/-- Receive-relevant connection state: the phase plus the data_size_ and
data_received_ counters of tcp_connection.cc. -/
structure ConnState where
  phase : ConnPhase
  data_size : Nat
  data_received : Nat
deriving DecidableEq, Repr

/-- TcpConnection::HandleReadSize (tcp_connection.cc, lines 153 to 176) as a
state step.  ec models the completion error of the 4-byte read; socket_open
models the timeout check (a closed socket means the deadline fired).  On the
success path the decoded size is stored and reading the payload starts;
the source performs no comparison of the decoded size with any limit. -/
def HandleReadSize (ec : Bool) (socket_open : Bool) (size_buffer : Bytes)
    (st : ConnState) : ConnState × Option TransportCondition :=
  if ec then ({ st with phase := .Closed }, some .kReceiveFailure)
  else if !socket_open then ({ st with phase := .Closed }, some .kReceiveTimeout)
  else
    ({ st with
        data_size := DecodeDataSize size_buffer
        data_received := 0
        phase := .ReadingData }, none)

/-- TcpConnection::HandleReadData (tcp_connection.cc, lines 199 to 227) as a
state step: accumulate received bytes; once data_received equals data_size
the message is posted for dispatch, else reading continues. -/
def HandleReadData (ec : Bool) (socket_open : Bool) (length : Nat)
    (st : ConnState) : ConnState × Option TransportCondition :=
  if ec then ({ st with phase := .Closed }, some .kReceiveFailure)
  else if !socket_open then ({ st with phase := .Closed }, some .kReceiveTimeout)
  else
    let received := st.data_received + length
    if received = st.data_size then
      ({ st with data_received := received, phase := .Dispatching }, none)
    else
      ({ st with data_received := received, phase := .ReadingData }, none)

/-- Key pair as used by the Vault Manager: the identity byte string and the
public key; the private key plays no role in the embedded handlers. -/
structure Keys where
  identity : Bytes
  public_key : Nat
deriving DecidableEq, Repr

/-- Modelled serialisation of a key pair (asymm::SerialiseKeys, an external
collaborator): an injective length-prefixed encoding. -/
def SerialiseKeys (k : Keys) : Bytes := encField k.identity ++ [k.public_key]

/-- Modelled parse of a key blob (asymm::ParseKeys). -/
def ParseKeys (blob : Bytes) : Option Keys :=
  match decField blob with
  | some (ident, [pk]) => some ⟨ident, pk⟩
  | _ => none

/-- Keys obtained from a blob at a call site that ignores the parse result
(HandleStartVaultRequest); failure leaves the default-constructed keys. -/
def KeysOfBlob (blob : Bytes) : Keys := (ParseKeys blob).getD ⟨[], 0⟩

/-- Modelled from the spec: control-message type tags
(controller_messages protobuf enumeration, not under src/); the numeric
values are symbolic, only their distinctness matters. -/
def kPing : Nat := 1

/-- Modelled from the spec: tag of START_VAULT_REQUEST. -/
def kStartVaultRequest : Nat := 2

/-- Modelled from the spec: tag of START_VAULT_RESPONSE. -/
def kStartVaultResponse : Nat := 3

/-- Modelled from the spec: tag of VAULT_IDENTITY_REQUEST. -/
def kVaultIdentityRequest : Nat := 4

/-- Modelled from the spec: tag of VAULT_IDENTITY_RESPONSE. -/
def kVaultIdentityResponse : Nat := 5

/-- Modelled from the spec: tag of STOP_VAULT_REQUEST. -/
def kStopVaultRequest : Nat := 6

/-- Modelled from the spec: tag of VAULT_SHUTDOWN_RESPONSE. -/
def kVaultShutdownResponse : Nat := 7

/-- Modelled from the spec: tag of UPDATE_INTERVAL_REQUEST. -/
def kUpdateIntervalRequest : Nat := 8

/-- Modelled from the spec: tag of UPDATE_INTERVAL_RESPONSE. -/
def kUpdateIntervalResponse : Nat := 9

/-- Modelled from the spec: detail::WrapMessage (utils.cc is not under src/):
the control-message envelope holding a type tag and a body. -/
def WrapMessage (type_tag : Nat) (payload : Bytes) : Bytes :=
  type_tag :: payload

/-- Modelled from the spec: detail::UnwrapMessage; an empty wire string does
not unwrap. -/
def UnwrapMessage : Bytes → Option (Nat × Bytes)
  | [] => none
  | t :: payload => some (t, payload)

/-- StartVaultRequest protobuf message: account name, serialised keys and
the bootstrap endpoint (controller_messages, modelled codec). -/
structure StartVaultRequest where
  account_name : Bytes
  keys : Bytes
  bootstrap_endpoint : Bytes
deriving DecidableEq, Repr

/-- Serialisation of a StartVaultRequest. -/
def SerialiseStartVaultRequest (r : StartVaultRequest) : Bytes :=
  encField r.account_name ++ encField r.keys ++ encField r.bootstrap_endpoint

/-- Parse of a StartVaultRequest; the whole payload must be consumed. -/
def ParseStartVaultRequest (input : Bytes) : Option StartVaultRequest :=
  match decField input with
  | none => none
  | some (a, rest1) =>
    match decField rest1 with
    | none => none
    | some (k, rest2) =>
      match decField rest2 with
      | some (b, []) => some ⟨a, k, b⟩
      | _ => none

/-- StopVaultRequest protobuf message: identity, data and signature. -/
structure StopVaultRequest where
  identity : Bytes
  data : Bytes
  signature : Bytes
deriving DecidableEq, Repr

/-- Serialisation of a StopVaultRequest. -/
def SerialiseStopVaultRequest (r : StopVaultRequest) : Bytes :=
  encField r.identity ++ encField r.data ++ encField r.signature

/-- Parse of a StopVaultRequest. -/
def ParseStopVaultRequest (input : Bytes) : Option StopVaultRequest :=
  match decField input with
  | none => none
  | some (i, rest1) =>
    match decField rest1 with
    | none => none
    | some (d, rest2) =>
      match decField rest2 with
      | some (s, []) => some ⟨i, d, s⟩
      | _ => none

/-- VaultIdentityRequest protobuf message: the process index. -/
structure VaultIdentityRequest where
  process_index : Nat
deriving DecidableEq, Repr

/-- Parse of a VaultIdentityRequest: a single index byte. -/
def ParseVaultIdentityRequest (input : Bytes) : Option VaultIdentityRequest :=
  match input with
  | [n] => some ⟨n⟩
  | _ => none

/-- UpdateIntervalRequest protobuf message with its optional new interval. -/
structure UpdateIntervalRequest where
  new_update_interval : Option Nat
deriving DecidableEq, Repr

/-- Parse of an UpdateIntervalRequest: a presence byte, then the value. -/
def ParseUpdateIntervalRequest (input : Bytes) : Option UpdateIntervalRequest :=
  match input with
  | [0] => some ⟨none⟩
  | [1, n] => some ⟨some n⟩
  | _ => none

/-- Bool encoded as one byte, used by the result fields of the responses. -/
def encBool (b : Bool) : Bytes := [if b then 1 else 0]

/-- VaultIdentityResponse body: account name and serialised keys. -/
def SerialiseVaultIdentityResponse (account_name keys : Bytes) : Bytes :=
  encField account_name ++ encField keys

/-- VaultInfo record of the Vault Manager
(vault_manager.cc, lines 70 to 99). -/
structure VaultInfo where
  process_index : Nat
  account_name : Bytes
  keys : Keys
  chunkstore_path : Bytes
  chunkstore_capacity : Nat
  client_port : Nat
  vault_port : Nat
  requested_to_run : Bool
  vault_requested : Bool
deriving DecidableEq, Repr

/-- VaultInfo::ToProtobuf (vault_manager.cc, lines 83 to 91): the projection
of a VaultInfo that is serialised into the config file. -/
structure PbVaultInfo where
  account_name : Bytes
  keys : Bytes
  chunkstore_path : Bytes
  chunkstore_capacity : Nat
  requested_to_run : Bool
deriving DecidableEq, Repr

/-- The config-file projection of one VaultInfo. -/
def VaultInfoToProtobuf (vi : VaultInfo) : PbVaultInfo :=
  { account_name := vi.account_name
    keys := SerialiseKeys vi.keys
    chunkstore_path := vi.chunkstore_path
    chunkstore_capacity := vi.chunkstore_capacity
    requested_to_run := vi.requested_to_run }

/-- ProcessManager::kInvalidIndex, the reserved invalid process handle
(process manager is an external collaborator; modelled as 0, with real
indices allocated from 1). -/
def kInvalidIndex : Nat := 0

/-- Supervisor state of the Vault Manager: the in-memory vault records, the
update interval in seconds, the next process index the process manager will
hand out, the lifecycle calls issued to the process manager, and the
sequence of config-file snapshots written by WriteConfigFile. -/
structure VaultManagerState where
  vault_infos : List VaultInfo
  update_interval : Nat
  next_process_index : Nat
  started_processes : List Nat
  stopped_processes : List Nat
  config_writes : List (Nat × List PbVaultInfo)
deriving DecidableEq, Repr

/-- VaultManager::WriteConfigFile (vault_manager.cc, lines 235 to 254):
serialises the update interval and every VaultInfo projection into the
config file; modelled as appending the snapshot to config_writes. -/
def WriteConfigFile (st : VaultManagerState) : VaultManagerState :=
  { st with
      config_writes :=
        st.config_writes ++
          [(st.update_interval, st.vault_infos.map VaultInfoToProtobuf)] }

/-- Clearing requested_to_run on the first VaultInfo whose keys identity
matches, as the iterator write in VaultManager::StopVault does. -/
def ClearRequestedToRun : List VaultInfo → Bytes → List VaultInfo
  | [], _ => []
  | vi :: rest, identity =>
    if vi.keys.identity = identity then
      { vi with requested_to_run := false } :: rest
    else vi :: ClearRequestedToRun rest identity

/-- VaultManager::StopVault (vault_manager.cc, lines 627 to 638): find the
record by identity; when found, stop its process, clear requested_to_run
and persist the config; when missing, do nothing. -/
def StopVault (st : VaultManagerState) (identity : Bytes) :
    VaultManagerState :=
  match st.vault_infos.find? (fun vi => vi.keys.identity = identity) with
  | none => st
  | some vi =>
    WriteConfigFile
      { st with
          stopped_processes := st.stopped_processes ++ [vi.process_index]
          vault_infos := ClearRequestedToRun st.vault_infos identity }

/-- VaultManager::HandleStopVaultRequest (vault_manager.cc, lines 406 to
443).  The second component is the response string: none models a handler
that returned leaving the response empty.  The response carries result true
exactly when the identity is found and Validate succeeds; StopVault is then
invoked unconditionally, exactly as in the source. -/
def HandleStopVaultRequest (crypto : Crypto) (st : VaultManagerState)
    (request : Bytes) : VaultManagerState × Option Bytes :=
  match ParseStopVaultRequest request with
  | none => (st, none)
  | some stop_vault_request =>
    let itr := st.vault_infos.find?
      (fun vi => vi.keys.identity = stop_vault_request.identity)
    let result :=
      match itr with
      | none => false
      | some vi =>
        crypto.Validate stop_vault_request.data stop_vault_request.signature
          vi.keys.public_key
    let response := WrapMessage kVaultShutdownResponse (encBool result)
    (StopVault st stop_vault_request.identity, some response)

/-- Environment of one HandleStartVaultRequest run, abstracting the external
effects the handler consults: whether HandleBootstrapFile succeeded, whether
the process manager accepted the new process, and whether the spawned vault
signalled vault_requested within the 3-second condition-variable wait. -/
structure StartVaultEnv where
  bootstrap_ok : Bool
  add_process_ok : Bool
  vault_requested_within_wait : Bool
deriving DecidableEq, Repr

/-- Wait budget of the start-vault handshake, in seconds
(vault_manager.cc, line 355). -/
def kStartVaultWaitSeconds : Nat := 3

/-- The VaultInfo record HandleStartVaultRequest builds before spawning
(vault_manager.cc, lines 322 to 337). The chunkstore path is derived from
the identity; the base32 SHA1 short id is an external hash, modelled as the
identity itself. -/
def NewVaultInfo (st : VaultManagerState) (req : StartVaultRequest) :
    VaultInfo :=
  { process_index := st.next_process_index
    account_name := req.account_name
    keys := KeysOfBlob req.keys
    chunkstore_path := (KeysOfBlob req.keys).identity
    chunkstore_capacity := 0
    client_port := 0
    vault_port := 0
    requested_to_run := false
    vault_requested := false }

/-- VaultManager::HandleStartVaultRequest (vault_manager.cc, lines 307 to
362): parse, prepare the bootstrap file, add and start the process, append
the record, persist the config, then wait up to 3 seconds for the vault to
announce itself; the response is true only when the wait succeeds. -/
def HandleStartVaultRequest (env : StartVaultEnv) (st : VaultManagerState)
    (request : Bytes) : VaultManagerState × Option Bytes :=
  match ParseStartVaultRequest request with
  | none => (st, none)
  | some req =>
    if !env.bootstrap_ok then
      (st, some (WrapMessage kStartVaultResponse (encBool false)))
    else
      let process_index :=
        if env.add_process_ok then st.next_process_index else kInvalidIndex
      if process_index = kInvalidIndex then
        (st, some (WrapMessage kStartVaultResponse (encBool false)))
      else
        let vault_info := NewVaultInfo st req
        let st1 :=
          { st with
              vault_infos := st.vault_infos ++ [vault_info]
              next_process_index := st.next_process_index + 1
              started_processes := st.started_processes ++ [process_index] }
        let st2 := WriteConfigFile st1
        if env.vault_requested_within_wait then
          (st2, some (WrapMessage kStartVaultResponse (encBool true)))
        else
          (st2, some (WrapMessage kStartVaultResponse (encBool false)))

/-- Setting vault_requested on the first VaultInfo with the given process
index, as HandleVaultIdentityRequest does under the record's mutex. -/
def SetVaultRequested : List VaultInfo → Nat → List VaultInfo
  | [], _ => []
  | vi :: rest, idx =>
    if vi.process_index = idx then
      { vi with vault_requested := true } :: rest
    else vi :: SetVaultRequested rest idx

/-- VaultManager::HandleVaultIdentityRequest (vault_manager.cc, lines 364 to
404): look up by process index; on a miss respond with empty fields, on a
hit respond with the account name and serialised keys and set
vault_requested (key serialisation is modelled as total). -/
def HandleVaultIdentityRequest (st : VaultManagerState) (request : Bytes) :
    VaultManagerState × Option Bytes :=
  match ParseVaultIdentityRequest request with
  | none => (st, none)
  | some req =>
    match st.vault_infos.find?
        (fun vi => vi.process_index = req.process_index) with
    | none =>
      (st, some (WrapMessage kVaultIdentityResponse
        (SerialiseVaultIdentityResponse [] [])))
    | some vi =>
      ({ st with
          vault_infos := SetVaultRequested st.vault_infos req.process_index },
        some (WrapMessage kVaultIdentityResponse
          (SerialiseVaultIdentityResponse vi.account_name
            (SerialiseKeys vi.keys))))

/-- kMinUpdateInterval, 5 minutes in seconds
(vault_manager.cc, lines 163 to 165). -/
def kMinUpdateInterval : Nat := 300

/-- kMaxUpdateInterval, 7 days in seconds
(vault_manager.cc, lines 167 to 169). -/
def kMaxUpdateInterval : Nat := 604800

/-- VaultManager::SetUpdateInterval (vault_manager.cc, lines 467 to 477):
out-of-range intervals are rejected. -/
def SetUpdateInterval (st : VaultManagerState) (update_interval : Nat) :
    VaultManagerState × Bool :=
  if update_interval < kMinUpdateInterval ∨
      kMaxUpdateInterval < update_interval then (st, false)
  else ({ st with update_interval := update_interval }, true)

/-- VaultManager::HandleUpdateIntervalRequest (vault_manager.cc, lines 445
to 465): a write request answers the new interval, or 0 when rejected; a
read request answers the current interval. -/
def HandleUpdateIntervalRequest (st : VaultManagerState) (request : Bytes) :
    VaultManagerState × Option Bytes :=
  match ParseUpdateIntervalRequest request with
  | none => (st, none)
  | some req =>
    match req.new_update_interval with
    | some n =>
      let (st', ok) := SetUpdateInterval st n
      if ok then
        (st', some (WrapMessage kUpdateIntervalResponse [st'.update_interval]))
      else
        (st', some (WrapMessage kUpdateIntervalResponse [0]))
    | none =>
      (st, some (WrapMessage kUpdateIntervalResponse [st.update_interval]))

/-- VaultManager::HandlePing (vault_manager.cc, lines 298 to 305): echo the
request.  The Ping protobuf message is not under src/ and the spec calls the
payload arbitrary, so the parse is modelled as total. -/
def HandlePing (request : Bytes) : Option Bytes :=
  some (WrapMessage kPing request)

/-- VaultManager::HandleReceivedMessage (vault_manager.cc, lines 266 to
296): unwrap, dispatch on the type tag, then send the response string; an
unwrap failure or an unknown tag returns before the send (none), and a
handler that dropped the request leaves the response empty (some []). -/
def HandleReceivedMessage (crypto : Crypto) (env : StartVaultEnv)
    (st : VaultManagerState) (message : Bytes) :
    VaultManagerState × Option Bytes :=
  match UnwrapMessage message with
  | none => (st, none)
  | some (t, payload) =>
    if t = kPing then (st, some ((HandlePing payload).getD []))
    else if t = kStartVaultRequest then
      let (st', r) := HandleStartVaultRequest env st payload
      (st', some (r.getD []))
    else if t = kVaultIdentityRequest then
      let (st', r) := HandleVaultIdentityRequest st payload
      (st', some (r.getD []))
    else if t = kStopVaultRequest then
      let (st', r) := HandleStopVaultRequest crypto st payload
      (st', some (r.getD []))
    else if t = kUpdateIntervalRequest then
      let (st', r) := HandleUpdateIntervalRequest st payload
      (st', some (r.getD []))
    else (st, none)

/-- Modelled from the spec: what the peer observes after the handler runs.
LocalTcpTransport is not under src/; per the spec and the framed-connection
dispatch in src (tcp_connection.cc, lines 242 to 248), an empty response
closes the connection without a reply, so the peer receives bytes only for
a non-empty response string. -/
def SendToPeer (response : Option Bytes) : Option Bytes :=
  match response with
  | none => none
  | some [] => none
  | some bs => some bs


/-- Environment in which bootstrap and process creation succeed and the
spawned vault announces itself within the wait. -/
def envAnnounced : StartVaultEnv :=
  { bootstrap_ok := true, add_process_ok := true,
    vault_requested_within_wait := true }

/-- A control message the claimed silent-drop policy covers: it fails to
unwrap, carries an unknown type tag, or its payload fails to parse as the
request type matching its tag.  The Ping parse is modelled as total, so no
ping payload is malformed here. -/
def MalformedRequest (message : Bytes) : Bool :=
  match UnwrapMessage message with
  | none => true
  | some (t, payload) =>
    if t = kPing then false
    else if t = kStartVaultRequest then
      (ParseStartVaultRequest payload).isNone
    else if t = kVaultIdentityRequest then
      (ParseVaultIdentityRequest payload).isNone
    else if t = kStopVaultRequest then
      (ParseStopVaultRequest payload).isNone
    else if t = kUpdateIntervalRequest then
      (ParseUpdateIntervalRequest payload).isNone
    else true

/-- Concrete crypto in which every key is valid and every signature check
succeeds, used to instantiate theorems. -/
def cryptoYes : Crypto :=
  { ValidateKey := fun _ => true
    CheckSignature := fun _ _ _ => true
    Validate := fun _ _ _ => true }

/-- Concrete crypto in which every key is valid and every signature check
fails, used to instantiate theorems on the non-owner paths. -/
def cryptoNo : Crypto :=
  { ValidateKey := fun _ => true
    CheckSignature := fun _ _ _ => false
    Validate := fun _ _ _ => false }

/-- Concrete crypto in which every key is valid and a signature check
succeeds exactly on data equal to the single byte 6, so the instantiating
caller is not the owner yet signs its own appendix validly. -/
def cryptoAppendix : Crypto :=
  { ValidateKey := fun _ => true
    CheckSignature := fun d _ _ => d == [6]
    Validate := fun _ _ _ => false }

/-- Concrete identity block for instantiations. -/
def sdIdentity : SignedData := ⟨[3], [4]⟩

/-- Concrete appendable control block: its data starts with the
kAppendableByAll tag byte. -/
def sdAllow : SignedData := ⟨[kAppendableByAll, 9], [5]⟩

/-- Concrete non-appendable control block: its data starts with 0. -/
def sdNoAllow : SignedData := ⟨[0, 9], [5]⟩

/-- Concrete appendable-by-all chunk with one appendix. -/
def chunk0 : AppendableByAll := ⟨sdIdentity, sdAllow, [⟨[6], [7]⟩]⟩

/-- Concrete chunk whose owner forbids appends. -/
def chunkNoAppend : AppendableByAll := ⟨sdIdentity, sdNoAllow, []⟩

/-- Concrete chunk name. -/
def name0 : Bytes := [10]

/-- Concrete one-chunk store holding chunk0 under name0. -/
def store0 : ChunkStore := [(name0, SerialiseAppendableByAll chunk0)]

/-- Concrete one-chunk store holding chunkNoAppend under name0. -/
def storeNoAppend : ChunkStore :=
  [(name0, SerialiseAppendableByAll chunkNoAppend)]

/-- Concrete key pair for vault-manager instantiations. -/
def keys0 : Keys := ⟨[7], 11⟩

/-- Concrete supervisor record: one running vault owned by keys0. -/
def vi0 : VaultInfo :=
  { process_index := 5
    account_name := [8]
    keys := keys0
    chunkstore_path := [9]
    chunkstore_capacity := 0
    client_port := 0
    vault_port := 0
    requested_to_run := true
    vault_requested := false }

/-- Concrete supervisor state holding vi0. -/
def vmState0 : VaultManagerState :=
  { vault_infos := [vi0]
    update_interval := 86400
    next_process_index := 6
    started_processes := [5]
    stopped_processes := []
    config_writes := [] }

/-- Concrete stop request naming vi0's identity. -/
def stopReq0 : StopVaultRequest := ⟨[7], [1], [2]⟩

/-- Concrete start request. -/
def startReq0 : StartVaultRequest := ⟨[8], SerialiseKeys keys0, []⟩

/-- Environment in which bootstrap and process creation succeed but the
spawned vault never announces itself within the wait. -/
def envTimeout : StartVaultEnv :=
  { bootstrap_ok := true, add_process_ok := true,
    vault_requested_within_wait := false }

theorem decField_enc (bs r : Bytes) : decField (encField bs ++ r) = some (bs, r) := by
  simp [encField, decField, List.take_append, List.drop_append]

theorem decSignedData_enc (sd : SignedData) (r : Bytes) :
    decSignedData (encSignedData sd ++ r) = some (sd, r) := by
  simp [encSignedData, decSignedData, List.append_assoc, decField_enc]

theorem decAppendices_enc (l : List SignedData) (r : Bytes) :
    decAppendices l.length (encAppendices l ++ r) = some (l, r) := by
  induction l with
  | nil => simp [encAppendices, decAppendices]
  | cons sd rest ih =>
    simp [encAppendices, decAppendices, List.append_assoc, decSignedData_enc, ih]

theorem ParseSignedData_Serialise (sd : SignedData) :
    ParseSignedData (SerialiseSignedData sd) = some sd := by
  have h := decSignedData_enc sd []
  simp only [List.append_nil] at h
  simp [ParseSignedData, SerialiseSignedData, h]

theorem ParseAppendableByAll_Serialise (c : AppendableByAll) :
    ParseAppendableByAll (SerialiseAppendableByAll c) = some c := by
  have h := decAppendices_enc c.appendices []
  simp only [List.append_nil] at h
  simp [ParseAppendableByAll, SerialiseAppendableByAll, List.append_assoc,
    decSignedData_enc, h]

theorem ParseModifyAppendableByAll_Serialise (m : ModifyAppendableByAll) :
    ParseModifyAppendableByAll (SerialiseModifyAppendableByAll m) = some m := by
  have h := decSignedData_enc m.identity_key []
  simp only [List.append_nil] at h
  simp [ParseModifyAppendableByAll, SerialiseModifyAppendableByAll,
    decSignedData_enc, h]

theorem SerialiseAppendableByAll_ne_nil (c : AppendableByAll) :
    SerialiseAppendableByAll c ≠ [] := by
  simp [SerialiseAppendableByAll, encSignedData, encField]

theorem shiftLeft_lor_byte (a b : Nat) (h : b < 256) :
    (a <<< 8) ||| b = 256 * a + b := by
  have h' : b < 2 ^ 8 := h
  rw [Nat.shiftLeft_eq, Nat.mul_comm, ← Nat.mul_add_lt_is_or h']

theorem DecodeDataSize_BigEndian4 (n : Nat) (h : n < 2 ^ 32) :
    DecodeDataSize (BigEndian4 n) = n := by
  have h1 : n / 2 ^ 16 % 256 < 256 := Nat.mod_lt _ (by norm_num)
  have h2 : n / 2 ^ 8 % 256 < 256 := Nat.mod_lt _ (by norm_num)
  have h3 : n % 256 < 256 := Nat.mod_lt _ (by norm_num)
  simp only [DecodeDataSize, BigEndian4, List.getD, List.get?, Option.getD_some]
  rw [shiftLeft_lor_byte _ _ h1, shiftLeft_lor_byte _ _ h2,
    shiftLeft_lor_byte _ _ h3]
  omega

theorem EncodeData_size_bytes (data : Bytes) (h : data.length < 2 ^ 32) :
    (EncodeData data).1 = BigEndian4 data.length := by
  simp only [EncodeData, BigEndian4, Nat.shiftRight_eq_div_pow,
    List.cons.injEq, and_true]
  refine ⟨by omega, by omega, by omega, by omega⟩

/-- C1: for every stored APPENDABLE_BY_ALL chunk C and every valid public
key K, Get returns kSuccess with bytes equal to C serialised with its
appendices cleared when K verifies against C.allow_others_to_append, and
otherwise returns kNotOwner with bytes equal to C.identity_key alone
serialised; the store is returned unchanged either way. -/
theorem processGet_stored_chunk (crypto : Crypto) (name version : Bytes)
    (public_key : Nat) (store : ChunkStore) (C : AppendableByAll)
    (hstored : ChunkStoreGet store name = SerialiseAppendableByAll C)
    (hkey : crypto.ValidateKey public_key = true) :
    ProcessGet crypto name version public_key store =
      if crypto.CheckSignature C.allow_others_to_append.data
          C.allow_others_to_append.signature public_key then
        (.kSuccess, SerialiseAppendableByAll { C with appendices := [] },
          store)
      else
        (.kNotOwner, SerialiseSignedData C.identity_key, store) := by
  cases hc : crypto.CheckSignature C.allow_others_to_append.data
      C.allow_others_to_append.signature public_key <;>
    simp [ProcessGet, hstored, SerialiseAppendableByAll_ne_nil,
      ParseAppendableByAll_Serialise, hkey, hc]

/-- Witness for C1 at a concrete chunk, store and crypto. -/
theorem processGet_stored_chunk_witness :
    ProcessGet cryptoYes name0 [] 11 store0 =
      if cryptoYes.CheckSignature chunk0.allow_others_to_append.data
          chunk0.allow_others_to_append.signature 11 then
        (.kSuccess, SerialiseAppendableByAll { chunk0 with appendices := [] },
          store0)
      else
        (.kNotOwner, SerialiseSignedData chunk0.identity_key, store0) :=
  processGet_stored_chunk cryptoYes name0 [] 11 store0 chunk0 (by rfl) (by rfl)

/-- C2: for every stored APPENDABLE_BY_ALL chunk whose control field's data
starts with the kAppendableByAll tag byte, a non-owner Modify whose content
parses as a SignedData with a signature valid under the caller's key
returns kSuccess and a post-image differing from the pre-image only by that
SignedData appended as one additional trailing appendix; when the first
byte differs from the tag the result is kAppendDisallowed. -/
theorem processModify_nonowner_append (crypto : Crypto)
    (name content version : Bytes) (public_key : Nat) (store : ChunkStore)
    (E : AppendableByAll)
    (hstored : ChunkStoreGet store name = SerialiseAppendableByAll E)
    (hkey : crypto.ValidateKey public_key = true)
    (hnotowner : crypto.CheckSignature E.allow_others_to_append.data
      E.allow_others_to_append.signature public_key = false) :
    (E.allow_others_to_append.data.headD 0 = kAppendableByAll →
      ∀ appendix : SignedData, ParseSignedData content = some appendix →
        crypto.CheckSignature appendix.data appendix.signature public_key =
          true →
        ProcessModify crypto name content version public_key store =
          (.kSuccess,
            SerialiseAppendableByAll
              { E with appendices := E.appendices ++ [appendix] },
            store)) ∧
    (E.allow_others_to_append.data.headD 0 ≠ kAppendableByAll →
      ProcessModify crypto name content version public_key store =
        (.kAppendDisallowed, [], store)) := by
  constructor
  · intro htag appendix hparse hsig
    rw [List.headD_eq_head?_getD] at htag
    simp [ProcessModify, hstored, SerialiseAppendableByAll_ne_nil,
      ParseAppendableByAll_Serialise, hkey, hnotowner, htag, hparse, hsig]
  · intro htag
    rw [List.headD_eq_head?_getD] at htag
    simp [ProcessModify, hstored, SerialiseAppendableByAll_ne_nil,
      ParseAppendableByAll_Serialise, hkey, hnotowner, htag]

/-- Witness for C2: an outsider appends to chunk0, and is refused on the
chunk whose control byte forbids appending. -/
theorem processModify_nonowner_append_witness :
    (ProcessModify cryptoAppendix name0 (SerialiseSignedData ⟨[6], [7]⟩) [] 11
        store0 =
      (.kSuccess,
        SerialiseAppendableByAll
          { chunk0 with appendices := chunk0.appendices ++ [⟨[6], [7]⟩] },
        store0)) ∧
    (ProcessModify cryptoNo name0 (SerialiseSignedData ⟨[6], [7]⟩) [] 11
        storeNoAppend =
      (.kAppendDisallowed, [], storeNoAppend)) := by
  constructor
  · have h := processModify_nonowner_append cryptoAppendix
      name0 (SerialiseSignedData ⟨[6], [7]⟩) [] 11 store0 chunk0
      (by rfl) (by rfl) (by decide)
    exact h.1 (by decide) ⟨[6], [7]⟩ (by rfl) (by decide)
  · have h := processModify_nonowner_append cryptoNo name0
      (SerialiseSignedData ⟨[6], [7]⟩) [] 11 storeNoAppend chunkNoAppend
      (by rfl) (by rfl) (by rfl)
    exact h.2 (by decide)

/-- C3: for every owner Modify whose content parses as
ModifyAppendableByAll, neither or both fields non-empty yields
kInvalidModify; a single chosen field with a valid signature yields the
existing chunk with appendices cleared when its data equals the existing
field's data, and the existing chunk with that field replaced and the
appendices untouched when it differs. -/
theorem processModify_owner_control (crypto : Crypto)
    (name content version : Bytes) (public_key : Nat) (store : ChunkStore)
    (E : AppendableByAll) (m : ModifyAppendableByAll)
    (hstored : ChunkStoreGet store name = SerialiseAppendableByAll E)
    (hkey : crypto.ValidateKey public_key = true)
    (howner : crypto.CheckSignature E.allow_others_to_append.data
      E.allow_others_to_append.signature public_key = true)
    (hparse : ParseModifyAppendableByAll content = some m) :
    (m.allow_others_to_append.data = [] → m.identity_key.data = [] →
      ProcessModify crypto name content version public_key store =
        (.kInvalidModify, [], store)) ∧
    (m.allow_others_to_append.data ≠ [] → m.identity_key.data ≠ [] →
      ProcessModify crypto name content version public_key store =
        (.kInvalidModify, [], store)) ∧
    (m.allow_others_to_append.data ≠ [] → m.identity_key.data = [] →
      crypto.CheckSignature m.allow_others_to_append.data
        m.allow_others_to_append.signature public_key = true →
      ProcessModify crypto name content version public_key store =
        (if m.allow_others_to_append.data = E.allow_others_to_append.data then
          (.kSuccess, SerialiseAppendableByAll { E with appendices := [] },
            store)
        else
          (.kSuccess,
            SerialiseAppendableByAll
              { E with allow_others_to_append := m.allow_others_to_append },
            store))) ∧
    (m.allow_others_to_append.data = [] → m.identity_key.data ≠ [] →
      crypto.CheckSignature m.identity_key.data m.identity_key.signature
        public_key = true →
      ProcessModify crypto name content version public_key store =
        (if m.identity_key.data = E.identity_key.data then
          (.kSuccess, SerialiseAppendableByAll { E with appendices := [] },
            store)
        else
          (.kSuccess,
            SerialiseAppendableByAll { E with identity_key := m.identity_key },
            store))) := by
  refine ⟨?_, ?_, ?_, ?_⟩
  · intro h1 h2
    simp [ProcessModify, hstored, SerialiseAppendableByAll_ne_nil,
      ParseAppendableByAll_Serialise, hkey, howner, hparse, h1, h2]
  · intro h1 h2
    simp [ProcessModify, hstored, SerialiseAppendableByAll_ne_nil,
      ParseAppendableByAll_Serialise, hkey, howner, hparse, h1, h2]
  · intro h1 h2 hsig
    cases hd : decide
        (m.allow_others_to_append.data = E.allow_others_to_append.data) <;>
      [skip; skip] <;>
      simp_all [ProcessModify, hstored, SerialiseAppendableByAll_ne_nil,
        ParseAppendableByAll_Serialise, hkey, howner, hparse, h1, h2, hsig]
  · intro h1 h2 hsig
    cases hd : decide (m.identity_key.data = E.identity_key.data) <;>
      [skip; skip] <;>
      simp_all [ProcessModify, hstored, SerialiseAppendableByAll_ne_nil,
        ParseAppendableByAll_Serialise, hkey, howner, hparse, h1, h2, hsig]

/-- Witness for C3: the owner of chunk0 re-asserts the existing control
data and obtains the chunk with appendices cleared, and a request with both
fields empty is an invalid modify. -/
theorem processModify_owner_control_witness :
    (ProcessModify cryptoYes name0
        (SerialiseModifyAppendableByAll ⟨⟨[kAppendableByAll, 9], [5]⟩,
          ⟨[], []⟩⟩) [] 11 store0 =
      (.kSuccess, SerialiseAppendableByAll { chunk0 with appendices := [] },
        store0)) ∧
    (ProcessModify cryptoYes name0
        (SerialiseModifyAppendableByAll ⟨⟨[], []⟩, ⟨[], []⟩⟩) [] 11 store0 =
      (.kInvalidModify, [], store0)) := by
  constructor
  · have h := processModify_owner_control cryptoYes name0
      (SerialiseModifyAppendableByAll ⟨⟨[kAppendableByAll, 9], [5]⟩,
        ⟨[], []⟩⟩) [] 11 store0 chunk0 ⟨⟨[kAppendableByAll, 9], [5]⟩, ⟨[], []⟩⟩
      (by rfl) (by rfl) (by rfl)
      (ParseModifyAppendableByAll_Serialise _)
    have h3 := h.2.2.1 (by decide) (by rfl) (by rfl)
    simpa using h3
  · have h := processModify_owner_control cryptoYes name0
      (SerialiseModifyAppendableByAll ⟨⟨[], []⟩, ⟨[], []⟩⟩) [] 11 store0
      chunk0 ⟨⟨[], []⟩, ⟨[], []⟩⟩ (by rfl) (by rfl) (by rfl)
      (ParseModifyAppendableByAll_Serialise _)
    exact h.1 (by rfl) (by rfl)

/-- Counterexample to C4 as stated: for an existing chunk, a valid public
key that does not pass the owner check, and a malformed ownership proof,
Delete returns kSignatureVerificationFailure, not kNotOwner — the owner
check on allow_others_to_append runs before the proof is ever parsed. -/
theorem processDelete_notowner_counterexample :
    ParseSignedData [] = none ∧
    cryptoNo.ValidateKey 11 = true ∧
    (ProcessDelete cryptoNo name0 [] [] 11 store0).1 ≠
      ReturnCode.kNotOwner ∧
    (ProcessDelete cryptoNo name0 [] [] 11 store0).1 =
      ReturnCode.kSignatureVerificationFailure := by decide

/-- C4 amended: for every existing APPENDABLE_BY_ALL chunk C, every valid
public key K that passes the owner check on C.allow_others_to_append, and
every ownership proof that does not parse as a SignedData or whose
signature does not verify under K, Delete returns kNotOwner and the store
is unchanged. -/
theorem processDelete_owner_malformed_proof (crypto : Crypto)
    (name version ownership_proof : Bytes) (public_key : Nat)
    (store : ChunkStore) (C : AppendableByAll)
    (hstored : ChunkStoreGet store name = SerialiseAppendableByAll C)
    (hkey : crypto.ValidateKey public_key = true)
    (howner : crypto.CheckSignature C.allow_others_to_append.data
      C.allow_others_to_append.signature public_key = true)
    (hproof : ∀ sd : SignedData, ParseSignedData ownership_proof = some sd →
      crypto.CheckSignature sd.data sd.signature public_key = false) :
    ProcessDelete crypto name version ownership_proof public_key store =
      (.kNotOwner, store) := by
  cases hp : ParseSignedData ownership_proof with
  | none =>
    simp [ProcessDelete, hstored, SerialiseAppendableByAll_ne_nil,
      ParseAppendableByAll_Serialise, hkey, howner, hp]
  | some sd =>
    simp [ProcessDelete, hstored, SerialiseAppendableByAll_ne_nil,
      ParseAppendableByAll_Serialise, hkey, howner, hp, hproof sd hp]

/-- Witness for the amended C4 at a concrete chunk and an unparseable
proof. -/
theorem processDelete_owner_malformed_proof_witness :
    ProcessDelete cryptoYes name0 [] [] 11 store0 =
      (.kNotOwner, store0) :=
  processDelete_owner_malformed_proof cryptoYes name0 [] [] 11 store0 chunk0
    (by rfl) (by rfl) (by rfl)
    (fun sd h => by simp [ParseSignedData, decSignedData, decField] at h)

/-- C5: for every payload P no larger than the maximum message size, the
frame encoding is the 4-byte big-endian length of P followed by P, the size
decoding of HandleReadSize recovers exactly the length of P, and receiving
the encoded frame yields P back. -/
theorem frame_roundtrip (P : Bytes)
    (h : P.length ≤ kMaxTransportMessageSize) :
    EncodedFrame P = BigEndian4 P.length ++ P ∧
    DecodeDataSize ((EncodedFrame P).take 4) = P.length ∧
    ReceiveFrame (EncodedFrame P) = some P := by
  have hlen : P.length < 2 ^ 32 := by
    have hb : kMaxTransportMessageSize < 2 ^ 32 := by
      norm_num [kMaxTransportMessageSize]
    omega
  have henc : EncodedFrame P = BigEndian4 P.length ++ P := by
    unfold EncodedFrame
    rw [EncodeData_size_bytes P hlen]
    rfl
  have hfour : (BigEndian4 P.length).length = 4 := rfl
  have htake : (BigEndian4 P.length ++ P).take 4 = BigEndian4 P.length := by
    rw [← hfour, List.take_left]
  have hdrop : (BigEndian4 P.length ++ P).drop 4 = P := by
    rw [← hfour, List.drop_left]
  refine ⟨henc, ?_, ?_⟩
  · rw [henc, htake, DecodeDataSize_BigEndian4 _ hlen]
  · rw [henc]
    unfold ReceiveFrame
    rw [if_pos (by rw [List.length_append, hfour]; omega), htake, hdrop,
      DecodeDataSize_BigEndian4 _ hlen, if_pos rfl]

/-- Witness for C5 at a concrete two-byte payload. -/
theorem frame_roundtrip_witness :
    EncodedFrame [10, 20] = BigEndian4 2 ++ [10, 20] ∧
    DecodeDataSize ((EncodedFrame [10, 20]).take 4) = 2 ∧
    ReceiveFrame (EncodedFrame [10, 20]) = some [10, 20] :=
  frame_roundtrip [10, 20] (by norm_num [kMaxTransportMessageSize])

/-- C6 evaluated at the failing input: HandleReadSize contains no size
check, so a frame whose decoded length 4294967295 exceeds
kMaxTransportMessageSize is not refused — the connection proceeds to read
the payload (phase ReadingData, no error condition), and once the payload
bytes have arrived HandleReadData posts the message for dispatch. -/
theorem handleReadSize_oversized_not_refused :
    (HandleReadSize false true [255, 255, 255, 255]
        ⟨ConnPhase.ReadingSize, 0, 0⟩).1.phase = ConnPhase.ReadingData ∧
    (HandleReadSize false true [255, 255, 255, 255]
        ⟨ConnPhase.ReadingSize, 0, 0⟩).1.data_size = 4294967295 ∧
    kMaxTransportMessageSize <
      (HandleReadSize false true [255, 255, 255, 255]
        ⟨ConnPhase.ReadingSize, 0, 0⟩).1.data_size ∧
    (HandleReadSize false true [255, 255, 255, 255]
        ⟨ConnPhase.ReadingSize, 0, 0⟩).2 = none ∧
    (HandleReadData false true 4294967295
        (HandleReadSize false true [255, 255, 255, 255]
          ⟨ConnPhase.ReadingSize, 0, 0⟩).1).1.phase =
      ConnPhase.Dispatching := by decide

/-- C7 evaluated at the failing input: a STOP_VAULT_REQUEST naming an
existing vault but carrying a signature that fails validation is answered
with result false, yet the handler still stops the vault's process, clears
requested_to_run and rewrites the config file, because StopVault is invoked
unconditionally after the response is chosen. -/
theorem handleStopVaultRequest_invalid_signature_still_stops :
    (HandleStopVaultRequest cryptoNo vmState0
        (SerialiseStopVaultRequest stopReq0)).2 =
      some (WrapMessage kVaultShutdownResponse (encBool false)) ∧
    (HandleStopVaultRequest cryptoNo vmState0
        (SerialiseStopVaultRequest stopReq0)).1.stopped_processes = [5] ∧
    (HandleStopVaultRequest cryptoNo vmState0
        (SerialiseStopVaultRequest stopReq0)).1.vault_infos =
      [{ vi0 with requested_to_run := false }] ∧
    (HandleStopVaultRequest cryptoNo vmState0
        (SerialiseStopVaultRequest stopReq0)).1.config_writes =
      [(86400, [VaultInfoToProtobuf { vi0 with requested_to_run := false }])]
    := by decide

/-- C8: for every received control message that fails to unwrap, carries an
unknown type tag, or whose payload fails to parse as the request type for
its tag, the Vault Manager delivers no response bytes to the peer. -/
theorem handleReceivedMessage_malformed_drops (crypto : Crypto)
    (env : StartVaultEnv) (st : VaultManagerState) (message : Bytes)
    (hmal : MalformedRequest message = true) :
    SendToPeer (HandleReceivedMessage crypto env st message).2 = none := by
  unfold MalformedRequest at hmal
  unfold HandleReceivedMessage
  cases hu : UnwrapMessage message with
  | none => simp [SendToPeer]
  | some tp =>
    obtain ⟨t, payload⟩ := tp
    rw [hu] at hmal
    simp only at hmal
    by_cases h1 : t = kPing
    · simp [h1] at hmal
    · by_cases h2 : t = kStartVaultRequest
      · subst h2
        simp [kPing, kStartVaultRequest, kVaultIdentityRequest,
          kStopVaultRequest, kUpdateIntervalRequest,
          Option.isNone_iff_eq_none] at hmal
        simp [kPing, kStartVaultRequest, kVaultIdentityRequest,
          kStopVaultRequest, kUpdateIntervalRequest,
          HandleStartVaultRequest, hmal, SendToPeer]
      · by_cases h3 : t = kVaultIdentityRequest
        · subst h3
          simp [kPing, kStartVaultRequest, kVaultIdentityRequest,
            kStopVaultRequest, kUpdateIntervalRequest,
            Option.isNone_iff_eq_none] at hmal
          simp [kPing, kStartVaultRequest, kVaultIdentityRequest,
            kStopVaultRequest, kUpdateIntervalRequest,
            HandleVaultIdentityRequest, hmal, SendToPeer]
        · by_cases h4 : t = kStopVaultRequest
          · subst h4
            simp [kPing, kStartVaultRequest, kVaultIdentityRequest,
              kStopVaultRequest, kUpdateIntervalRequest,
              Option.isNone_iff_eq_none] at hmal
            simp [kPing, kStartVaultRequest, kVaultIdentityRequest,
              kStopVaultRequest, kUpdateIntervalRequest,
              HandleStopVaultRequest, hmal, SendToPeer]
          · by_cases h5 : t = kUpdateIntervalRequest
            · subst h5
              simp [kPing, kStartVaultRequest, kVaultIdentityRequest,
                kStopVaultRequest, kUpdateIntervalRequest,
                Option.isNone_iff_eq_none] at hmal
              simp [kPing, kStartVaultRequest, kVaultIdentityRequest,
                kStopVaultRequest, kUpdateIntervalRequest,
                HandleUpdateIntervalRequest, hmal, SendToPeer]
            · simp [h1, h2, h3, h4, h5, SendToPeer]

/-- Witness for C8: an unknown tag 42 and a stop request with an
unparseable payload are both dropped without a reply. -/
theorem handleReceivedMessage_malformed_drops_witness :
    SendToPeer
      (HandleReceivedMessage cryptoYes envTimeout vmState0 [42, 1, 2]).2 =
        none ∧
    SendToPeer
      (HandleReceivedMessage cryptoYes envTimeout vmState0
        [kStopVaultRequest, 9]).2 = none :=
  ⟨handleReceivedMessage_malformed_drops cryptoYes envTimeout vmState0
      [42, 1, 2] (by decide),
    handleReceivedMessage_malformed_drops cryptoYes envTimeout vmState0
      [kStopVaultRequest, 9] (by decide)⟩

/-- Counterexample to C9 as stated: when the spawned vault never announces
itself within the wait, the handler still persists the config file carrying
the new VaultInfo (WriteConfigFile runs before the wait), while the client
is answered with result false. -/
theorem handleStartVaultRequest_timeout_counterexample :
    (HandleStartVaultRequest envTimeout vmState0
        (SerialiseStartVaultRequest startReq0)).2 =
      some (WrapMessage kStartVaultResponse (encBool false)) ∧
    (HandleStartVaultRequest envTimeout vmState0
        (SerialiseStartVaultRequest startReq0)).1.config_writes =
      [(86400,
        (vmState0.vault_infos ++ [NewVaultInfo vmState0 startReq0]).map
          VaultInfoToProtobuf)] := by decide

/-- C9 amended: after spawning the child the handler persists the config
with the new VaultInfo before waiting, so the config is persisted whether
or not the vault announces itself within the 3-second budget; the wait
outcome decides only the response, false on timeout and true on success. -/
theorem handleStartVaultRequest_persist_then_wait (env : StartVaultEnv)
    (st : VaultManagerState) (req : StartVaultRequest) (request : Bytes)
    (hparse : ParseStartVaultRequest request = some req)
    (hboot : env.bootstrap_ok = true)
    (hadd : env.add_process_ok = true)
    (hidx : st.next_process_index ≠ kInvalidIndex) :
    (HandleStartVaultRequest env st request).1.config_writes =
      st.config_writes ++
        [(st.update_interval,
          (st.vault_infos ++ [NewVaultInfo st req]).map
            VaultInfoToProtobuf)] ∧
    (HandleStartVaultRequest env st request).2 =
      some (WrapMessage kStartVaultResponse
        (encBool env.vault_requested_within_wait)) := by
  cases hw : env.vault_requested_within_wait <;>
    simp [HandleStartVaultRequest, hparse, hboot, hadd, hidx, hw,
      WriteConfigFile]

/-- Witness for the amended C9: with the vault announcing in time, the
response is true and the config snapshot carries the new record. -/
theorem handleStartVaultRequest_persist_then_wait_witness :
    (HandleStartVaultRequest envAnnounced vmState0
        (SerialiseStartVaultRequest startReq0)).1.config_writes =
      vmState0.config_writes ++
        [(vmState0.update_interval,
          (vmState0.vault_infos ++ [NewVaultInfo vmState0 startReq0]).map
            VaultInfoToProtobuf)] ∧
    (HandleStartVaultRequest envAnnounced vmState0
        (SerialiseStartVaultRequest startReq0)).2 =
      some (WrapMessage kStartVaultResponse
        (encBool envAnnounced.vault_requested_within_wait)) :=
  handleStartVaultRequest_persist_then_wait envAnnounced vmState0 startReq0
    (SerialiseStartVaultRequest startReq0) (by decide) (by rfl) (by rfl)
    (by decide)

/-- C10: no APPENDABLE_BY_ALL handler operation mutates the chunk store:
Get, Store, Delete, Modify and Has all return the store they were given,
for every input; the rewritten views are produced only in the output
components. -/
theorem chunk_actions_store_readonly (crypto : Crypto)
    (name content version ownership_proof : Bytes) (public_key : Nat)
    (store : ChunkStore) :
    (ProcessGet crypto name version public_key store).2.2 = store ∧
    (ProcessStore crypto name content public_key store).2 = store ∧
    (ProcessDelete crypto name version ownership_proof public_key
      store).2 = store ∧
    (ProcessModify crypto name content version public_key store).2.2 =
      store ∧
    (ProcessHas crypto name version public_key store).2 = store := by
  refine ⟨?_, ?_, ?_, ?_, ?_⟩
  · unfold ProcessGet
    try dsimp only
    repeat' first
      | rfl
      | split
  · unfold ProcessStore
    try dsimp only
    repeat' first
      | rfl
      | split
  · unfold ProcessDelete
    try dsimp only
    repeat' first
      | rfl
      | split
  · unfold ProcessModify
    try dsimp only
    repeat' first
      | rfl
      | split
  · unfold ProcessHas
    try dsimp only
    repeat' first
      | rfl
      | split
